import Mathlib

/-!
Verification development for the Path_Planning repository (training_model.py,
pvf_fun.py).  The Python code is embedded shallowly: 2D numpy vectors become
pairs of reals, the node grid becomes a total function from integer index
pairs to vectors, float arithmetic is modelled by real arithmetic, and the
while-loop of av_traj becomes a fuel-indexed iteration of its loop body.
Helper functions imported from the module training_model_fun (absent from the
sources) are modelled from the specification and marked as such.
-/

open scoped Classical

noncomputable section

namespace PathPlanning

/-- A 2D point or vector, as the pair (x, y). -/
abbrev Pt := ℝ × ℝ

/-- The node grid of BuildGrid: each integer index pair holds one 2D vector.
Unvisited nodes hold the zero vector (numpy zeros initialisation). -/
def Grid := (ℤ × ℤ) → Pt

/-- Y_FACT from pvf_fun.py: math.sqrt(3)/2, the row-height factor. -/
def Y_FACT : ℝ := Real.sqrt 3 / 2

/-- np.linalg.norm of a 2-vector: the Euclidean length. -/
def norm2 (v : Pt) : ℝ := Real.sqrt (v.1 ^ 2 + v.2 ^ 2)

theorem norm2_nonneg (v : Pt) : 0 ≤ norm2 v := Real.sqrt_nonneg _

theorem sq_norm2 (v : Pt) : norm2 v ^ 2 = v.1 ^ 2 + v.2 ^ 2 :=
  Real.sq_sqrt (by positivity)

theorem norm2_eq_zero_iff {v : Pt} : norm2 v = 0 ↔ v = 0 := by
  unfold norm2
  rw [Real.sqrt_eq_zero (by positivity)]
  constructor
  · intro h
    have h1 : v.1 = 0 := by nlinarith [sq_nonneg v.1, sq_nonneg v.2]
    have h2 : v.2 = 0 := by nlinarith [sq_nonneg v.1, sq_nonneg v.2]
    exact Prod.ext_iff.mpr ⟨by simpa using h1, by simpa using h2⟩
  · rintro rfl
    simp [Prod.fst_zero, Prod.snd_zero]

theorem norm2_pos {v : Pt} (h : v ≠ 0) : 0 < norm2 v :=
  lt_of_le_of_ne (norm2_nonneg v) (fun e => h (norm2_eq_zero_iff.mp e.symm))

theorem norm2_smul (c : ℝ) (v : Pt) : norm2 (c • v) = |c| * norm2 v := by
  unfold norm2
  have h1 : (c • v).1 = c * v.1 := rfl
  have h2 : (c • v).2 = c * v.2 := rfl
  rw [h1, h2, show (c * v.1) ^ 2 + (c * v.2) ^ 2 = c ^ 2 * (v.1 ^ 2 + v.2 ^ 2) by ring,
    Real.sqrt_mul (sq_nonneg c), Real.sqrt_sq_eq_abs]

theorem norm2_add_le (u v : Pt) : norm2 (u + v) ≤ norm2 u + norm2 v := by
  have hu2 := sq_norm2 u
  have hv2 := sq_norm2 v
  have hu := norm2_nonneg u
  have hv := norm2_nonneg v
  have cauchy : u.1 * v.1 + u.2 * v.2 ≤ norm2 u * norm2 v := by
    nlinarith [sq_nonneg (u.1 * v.2 - u.2 * v.1), mul_nonneg hu hv,
      sq_nonneg (u.1 * v.1 + u.2 * v.2 - norm2 u * norm2 v),
      sq_nonneg (u.1 * v.1 + u.2 * v.2 + norm2 u * norm2 v)]
  have key : (u + v).1 ^ 2 + (u + v).2 ^ 2 ≤ (norm2 u + norm2 v) ^ 2 := by
    have e1 : (u + v).1 = u.1 + v.1 := rfl
    have e2 : (u + v).2 = u.2 + v.2 := rfl
    rw [e1, e2]
    nlinarith [cauchy]
  calc norm2 (u + v) = Real.sqrt ((u + v).1 ^ 2 + (u + v).2 ^ 2) := rfl
    _ ≤ Real.sqrt ((norm2 u + norm2 v) ^ 2) := Real.sqrt_le_sqrt key
    _ = norm2 u + norm2 v := Real.sqrt_sq (by positivity)

theorem norm2_neg (v : Pt) : norm2 (-v) = norm2 v := by
  unfold norm2
  have h1 : (-v).1 = -v.1 := rfl
  have h2 : (-v).2 = -v.2 := rfl
  rw [h1, h2]
  ring_nf

theorem norm2_sub_le (u v : Pt) : norm2 (u - v) ≤ norm2 u + norm2 v := by
  have := norm2_add_le u (-v)
  rw [norm2_neg] at this
  simpa [sub_eq_add_neg] using this

/-- BuildGrid.update_node (training_model.py, lines 167-209).  An empty node
(both components exactly zero) is populated with the incoming vector;
otherwise the node moves toward the incoming vector by the scale factor
len(vec)/(len(vec)+len(hist)). -/
def update_node (g : Grid) (vec : Pt) (idx : ℤ × ℤ) : Grid :=
  fun q =>
    if q = idx then
      if (g idx).1 = 0 ∧ (g idx).2 = 0 then vec
      else
        g idx + (norm2 vec / (norm2 vec + norm2 (g idx))) • (vec - g idx)
    else g q

theorem update_node_self (g : Grid) (vec : Pt) (idx : ℤ × ℤ) :
    update_node g vec idx idx =
      if (g idx).1 = 0 ∧ (g idx).2 = 0 then vec
      else g idx + (norm2 vec / (norm2 vec + norm2 (g idx))) • (vec - g idx) := by
  simp [update_node]

theorem update_node_other (g : Grid) (vec : Pt) (idx q : ℤ × ℤ) (h : q ≠ idx) :
    update_node g vec idx q = g q := by
  simp [update_node, h]

theorem pair_eq_zero_iff (v : Pt) : v.1 = 0 ∧ v.2 = 0 ↔ v = 0 := by
  rw [Prod.ext_iff]
  rfl

theorem update_node_visited (g : Grid) (vec : Pt) (idx : ℤ × ℤ)
    (h : g idx ≠ 0) :
    update_node g vec idx idx =
      g idx + (norm2 vec / (norm2 vec + norm2 (g idx))) • (vec - g idx) := by
  rw [update_node_self, if_neg (fun hc => h ((pair_eq_zero_iff _).mp hc))]

/-- A concrete grid whose every node holds the vector (1, 0). -/
def gOne : Grid := fun _ => (1, 0)

theorem gOne_ne_zero (idx : ℤ × ℤ) : gOne idx ≠ 0 := by
  intro hc
  have h1 := (Prod.ext_iff.mp hc).1
  have h2 : (1 : ℝ) = 0 := by simpa [gOne] using h1
  norm_num at h2

/-- Modelled from the spec: coord_from_ind from the absent module
training_model_fun.  Section 3 of the spec gives the index-to-coordinate map
x(i, j) = i * s / 2 and y(i, j) = j * s * (sqrt 3 / 2). -/
def coord_from_ind (idx : ℤ × ℤ) (s : ℝ) : Pt :=
  ((idx.1 : ℝ) * (s / 2), (idx.2 : ℝ) * (s * Y_FACT))

/-- Modelled from the spec: dist2node from the absent module
training_model_fun.  Section 4.A of the spec: the Euclidean distance from a
point to the node at the given indices. -/
def dist2node (p : Pt) (idx : ℤ × ℤ) (s : ℝ) : ℝ :=
  norm2 (p - coord_from_ind idx s)

/-- Modelled from the spec: find_trident from the absent module
training_model_fun.  Section 4.A of the spec: the indices of the three nodes
of the smallest lattice triangle containing the point, returned in the order
(left, right, center); ties round the row and column down.  The lattice rows
sit at heights j * s * Y_FACT, a row contains the indices with the parity of
its row number, and within the strip above row j the up-triangle over base
column m is bounded by its two slanted edges of slope ±sqrt 3. -/
def find_trident (p : Pt) (s : ℝ) : (ℤ × ℤ) × (ℤ × ℤ) × (ℤ × ℤ) :=
  let h := s * Y_FACT
  let j := ⌊p.2 / h⌋
  let yfrac := p.2 - (j : ℝ) * h
  let par := j % 2
  let x0 := p.1 - (par : ℝ) * (s / 2)
  let m := ⌊x0 / s⌋
  let xf := x0 - (m : ℝ) * s
  let ib := 2 * m + par
  if yfrac ≤ Real.sqrt 3 * xf ∧ yfrac ≤ Real.sqrt 3 * (s - xf) then
    ((ib, j), (ib + 2, j), (ib + 1, j + 1))
  else if Real.sqrt 3 * xf < yfrac then
    ((ib - 1, j + 1), (ib + 1, j + 1), (ib, j))
  else
    ((ib + 1, j + 1), (ib + 3, j + 1), (ib + 2, j))

/-- Every trident returned by find_trident has the canonical shape: the right
node two columns right of the left node on the same row, and the center node
one column right on the row above or below. -/
theorem find_trident_shape (p : Pt) (s : ℝ) :
    (find_trident p s).2.1 = ((find_trident p s).1.1 + 2, (find_trident p s).1.2) ∧
      ((find_trident p s).2.2 =
          ((find_trident p s).1.1 + 1, (find_trident p s).1.2 + 1) ∨
        (find_trident p s).2.2 =
          ((find_trident p s).1.1 + 1, (find_trident p s).1.2 - 1)) := by
  simp only [find_trident]
  split_ifs with h1 h2
  · exact ⟨rfl, Or.inl rfl⟩
  · constructor
    · simp only [Prod.mk.injEq]
      exact ⟨by ring, by ring⟩
    · right
      simp only [Prod.mk.injEq]
      exact ⟨by ring, by ring⟩
  · constructor
    · simp only [Prod.mk.injEq]
      exact ⟨by ring, by ring⟩
    · right
      simp only [Prod.mk.injEq]
      exact ⟨by ring, by ring⟩

/-- Modelled from the spec: Python's built-in round, used by av_traj on float
margins: round half to even, otherwise to the nearest integer. -/
def pyRound (x : ℝ) : ℤ :=
  if Int.fract x = 1 / 2 then (if Even ⌊x⌋ then ⌊x⌋ else ⌊x⌋ + 1) else round x

theorem pyRound_nonneg {x : ℝ} (hx : 0 ≤ x) : 0 ≤ pyRound x := by
  unfold pyRound
  split
  · have h0 : (0 : ℤ) ≤ ⌊x⌋ := Int.floor_nonneg.mpr hx
    split
    · exact h0
    · omega
  · rw [round_eq]
    have : (0 : ℝ) ≤ x + 1 / 2 := by linarith
    exact Int.floor_nonneg.mpr this

theorem pyRound_of_fract_ne (x : ℝ) (h : Int.fract x ≠ 1 / 2) :
    pyRound x = round x := by
  unfold pyRound
  rw [if_neg h]

/-- The lengths of the consecutive segments of a trajectory. -/
def segLens : List Pt → List ℝ
  | a :: b :: rest => norm2 (b - a) :: segLens (b :: rest)
  | _ => []

/-- Modelled from the spec: the minimum segment length of traj_metrics from
the absent module training_model_fun (section 4.B); it is undefined for
trajectories of fewer than two points, embedded here as 0. -/
def minSeg (T : List Pt) : ℝ :=
  match segLens T with
  | [] => 0
  | a :: rest => rest.foldl min a

/-- Modelled from the spec: the total path length of traj_metrics from the
absent module training_model_fun (section 4.B). -/
def pathLen (T : List Pt) : ℝ := (segLens T).sum

/-- The visited indicator of av_traj: 1 when the stored vector has nonzero
length (training_model.py, lines 263-270). -/
def visitFlag (v : Pt) : ℕ := if norm2 v ≠ 0 then 1 else 0

theorem visitFlag_eq_one {v : Pt} (h : v ≠ 0) : visitFlag v = 1 := by
  simp [visitFlag, norm2_eq_zero_iff, h]

theorem visitFlag_eq_zero {v : Pt} (h : v = 0) : visitFlag v = 0 := by
  simp [visitFlag, norm2_eq_zero_iff, h]

/-- The case dispatch of one iteration of BuildGrid.av_traj
(training_model.py, lines 252-420): fetch the trident of the last appended
point, count the visited nodes, and produce the next location together with
the possibly mutated grid; none embeds the `return None` of the all-empty
case.  The Python dispatch is `if k==0 / if k==1 / if k==2 / else`, so the
final weighted-sum block runs both for k=3 and, after the synthesis of the
missing vectors, for k=1. -/
def av_step (s : ℝ) (g : Grid) (loc last : Pt) : Option (Pt × Grid) :=
  let L := (find_trident last s).1
  let R := (find_trident last s).2.1
  let C := (find_trident last s).2.2
  let vL := g L
  let vR := g R
  let vC := g C
  let lv := visitFlag vL
  let rv := visitFlag vR
  let cv := visitFlag vC
  if lv + rv + cv = 0 then none
  else
    let vs :=
      if lv + rv + cv = 1 then
        if lv = 1 ∧ rv = 0 ∧ cv = 0 then
          (vL, coord_from_ind L s + vL - coord_from_ind R s,
            coord_from_ind L s + vL - coord_from_ind C s)
        else if lv = 0 ∧ rv = 1 ∧ cv = 0 then
          (coord_from_ind R s + vR - coord_from_ind L s, vR,
            coord_from_ind R s + vR - coord_from_ind C s)
        else if lv = 0 ∧ rv = 0 ∧ cv = 1 then
          (coord_from_ind C s + vC - coord_from_ind L s,
            coord_from_ind C s + vC - coord_from_ind R s, vC)
        else (vL, vR, vC)
      else (vL, vR, vC)
    let g1 :=
      if lv + rv + cv = 1 then
        update_node (update_node (update_node g vs.1 L) vs.2.1 R) vs.2.2 C
      else g
    if lv + rv + cv = 2 then
      let dR := dist2node last R s
      let dL := dist2node last L s
      let dC := dist2node last C s
      if lv = 0 ∧ rv = 1 ∧ cv = 1 then
        let la := loc + ((dR / (dR + dC)) • vR + (dC / (dR + dC)) • vC)
        some (la, update_node g1 (la - coord_from_ind L s) L)
      else if lv = 1 ∧ rv = 0 ∧ cv = 1 then
        let la := loc + ((dL / (dL + dC)) • vL + (dC / (dL + dC)) • vC)
        some (la, update_node g1 (la - coord_from_ind R s) R)
      else
        let la := loc + ((dL / (dL + dR)) • vL + (dR / (dL + dR)) • vR)
        some (la, update_node g1 (la - coord_from_ind C s) C)
    else
      let dL := dist2node last L s
      let dR := dist2node last R s
      let dC := dist2node last C s
      let den := dL + dC + dR
      some (loc + ((((dC + dR - dL) / den) • vs.1 + ((dC + dL - dR) / den) • vs.2.1) +
        ((dL + dR - dC) / den) • vs.2.2), g1)

theorem av_step_k0 {s : ℝ} {g : Grid} {loc last : Pt} {L R C : ℤ × ℤ}
    (hf : find_trident last s = (L, R, C))
    (hL : g L = 0) (hR : g R = 0) (hC : g C = 0) :
    av_step s g loc last = none := by
  simp [av_step, hf, visitFlag_eq_zero hL, visitFlag_eq_zero hR, visitFlag_eq_zero hC]

theorem av_step_k2_left {s : ℝ} {g : Grid} {loc last : Pt} {L R C : ℤ × ℤ}
    (hf : find_trident last s = (L, R, C))
    (hL : g L = 0) (hR : g R ≠ 0) (hC : g C ≠ 0) :
    av_step s g loc last =
      some (loc + ((dist2node last R s / (dist2node last R s + dist2node last C s)) • g R +
          (dist2node last C s / (dist2node last R s + dist2node last C s)) • g C),
        update_node g
          ((loc + ((dist2node last R s / (dist2node last R s + dist2node last C s)) • g R +
            (dist2node last C s / (dist2node last R s + dist2node last C s)) • g C)) -
              coord_from_ind L s) L) := by
  simp [av_step, hf, visitFlag_eq_zero hL, visitFlag_eq_one hR, visitFlag_eq_one hC]

theorem av_step_k2_right {s : ℝ} {g : Grid} {loc last : Pt} {L R C : ℤ × ℤ}
    (hf : find_trident last s = (L, R, C))
    (hL : g L ≠ 0) (hR : g R = 0) (hC : g C ≠ 0) :
    av_step s g loc last =
      some (loc + ((dist2node last L s / (dist2node last L s + dist2node last C s)) • g L +
          (dist2node last C s / (dist2node last L s + dist2node last C s)) • g C),
        update_node g
          ((loc + ((dist2node last L s / (dist2node last L s + dist2node last C s)) • g L +
            (dist2node last C s / (dist2node last L s + dist2node last C s)) • g C)) -
              coord_from_ind R s) R) := by
  simp [av_step, hf, visitFlag_eq_one hL, visitFlag_eq_zero hR, visitFlag_eq_one hC]

theorem av_step_k2_center {s : ℝ} {g : Grid} {loc last : Pt} {L R C : ℤ × ℤ}
    (hf : find_trident last s = (L, R, C))
    (hL : g L ≠ 0) (hR : g R ≠ 0) (hC : g C = 0) :
    av_step s g loc last =
      some (loc + ((dist2node last L s / (dist2node last L s + dist2node last R s)) • g L +
          (dist2node last R s / (dist2node last L s + dist2node last R s)) • g R),
        update_node g
          ((loc + ((dist2node last L s / (dist2node last L s + dist2node last R s)) • g L +
            (dist2node last R s / (dist2node last L s + dist2node last R s)) • g R)) -
              coord_from_ind C s) C) := by
  simp [av_step, hf, visitFlag_eq_one hL, visitFlag_eq_one hR, visitFlag_eq_zero hC]

theorem av_step_k3 {s : ℝ} {g : Grid} {loc last : Pt} {L R C : ℤ × ℤ}
    (hf : find_trident last s = (L, R, C))
    (hL : g L ≠ 0) (hR : g R ≠ 0) (hC : g C ≠ 0) :
    av_step s g loc last =
      some (loc +
        ((((dist2node last C s + dist2node last R s - dist2node last L s) /
            (dist2node last L s + dist2node last C s + dist2node last R s)) • g L +
          ((dist2node last C s + dist2node last L s - dist2node last R s) /
            (dist2node last L s + dist2node last C s + dist2node last R s)) • g R) +
          ((dist2node last L s + dist2node last R s - dist2node last C s) /
            (dist2node last L s + dist2node last C s + dist2node last R s)) • g C), g) := by
  simp [av_step, hf, visitFlag_eq_one hL, visitFlag_eq_one hR, visitFlag_eq_one hC]

theorem av_step_k1_left {s : ℝ} {g : Grid} {loc last : Pt} {L R C : ℤ × ℤ}
    (hf : find_trident last s = (L, R, C))
    (hL : g L ≠ 0) (hR : g R = 0) (hC : g C = 0) :
    av_step s g loc last =
      some (loc +
        ((((dist2node last C s + dist2node last R s - dist2node last L s) /
            (dist2node last L s + dist2node last C s + dist2node last R s)) • g L +
          ((dist2node last C s + dist2node last L s - dist2node last R s) /
            (dist2node last L s + dist2node last C s + dist2node last R s)) •
              (coord_from_ind L s + g L - coord_from_ind R s)) +
          ((dist2node last L s + dist2node last R s - dist2node last C s) /
            (dist2node last L s + dist2node last C s + dist2node last R s)) •
              (coord_from_ind L s + g L - coord_from_ind C s)),
        update_node (update_node (update_node g (g L) L)
          (coord_from_ind L s + g L - coord_from_ind R s) R)
          (coord_from_ind L s + g L - coord_from_ind C s) C) := by
  simp [av_step, hf, visitFlag_eq_one hL, visitFlag_eq_zero hR, visitFlag_eq_zero hC]

theorem av_step_k1_right {s : ℝ} {g : Grid} {loc last : Pt} {L R C : ℤ × ℤ}
    (hf : find_trident last s = (L, R, C))
    (hL : g L = 0) (hR : g R ≠ 0) (hC : g C = 0) :
    av_step s g loc last =
      some (loc +
        ((((dist2node last C s + dist2node last R s - dist2node last L s) /
            (dist2node last L s + dist2node last C s + dist2node last R s)) •
              (coord_from_ind R s + g R - coord_from_ind L s) +
          ((dist2node last C s + dist2node last L s - dist2node last R s) /
            (dist2node last L s + dist2node last C s + dist2node last R s)) • g R) +
          ((dist2node last L s + dist2node last R s - dist2node last C s) /
            (dist2node last L s + dist2node last C s + dist2node last R s)) •
              (coord_from_ind R s + g R - coord_from_ind C s)),
        update_node (update_node (update_node g
          (coord_from_ind R s + g R - coord_from_ind L s) L) (g R) R)
          (coord_from_ind R s + g R - coord_from_ind C s) C) := by
  simp [av_step, hf, visitFlag_eq_zero hL, visitFlag_eq_one hR, visitFlag_eq_zero hC]

theorem sqrt3_gt_17 : (1.7 : ℝ) < Real.sqrt 3 :=
  (Real.lt_sqrt (by norm_num)).mpr (by norm_num)

theorem sqrt3_lt_18 : Real.sqrt 3 < (1.8 : ℝ) :=
  (Real.sqrt_lt' (by norm_num)).mpr (by norm_num)

/-- Evaluation of the modelled find_trident on the horizontal band used by
the concrete witnesses: points (x, 0.4) with x in [1, 2) that satisfy the
two slant conditions of the up-triangle over base [1, 2]. -/
theorem find_trident_eval_mid (x : ℝ) (h1 : 1 ≤ x) (h2 : x < 2)
    (h3 : (0.4 : ℝ) ≤ Real.sqrt 3 * (x - 1)) (h4 : (0.4 : ℝ) ≤ Real.sqrt 3 * (2 - x)) :
    find_trident (x, (0.4 : ℝ)) 1 = ((2, 0), (4, 0), (3, 1)) := by
  have s3pos : (0 : ℝ) < Real.sqrt 3 := by positivity
  have s3gt : (1.7 : ℝ) < Real.sqrt 3 := sqrt3_gt_17
  have hj : ⌊(0.4 : ℝ) / (1 * Y_FACT)⌋ = 0 := by
    rw [Int.floor_eq_zero_iff]
    constructor
    · have : (0 : ℝ) < 1 * Y_FACT := by
        unfold Y_FACT
        linarith
      positivity
    · show (0.4 : ℝ) / (1 * Y_FACT) < 1
      rw [div_lt_one (by unfold Y_FACT; linarith)]
      unfold Y_FACT
      linarith
  have hm : ⌊x⌋ = 1 := by
    rw [Int.floor_eq_iff]
    constructor
    · exact_mod_cast h1
    · push_cast
      linarith
  simp only [find_trident]
  rw [hj]
  simp only [Int.zero_emod, Int.cast_zero, zero_mul, sub_zero, div_one]
  rw [hm]
  simp only [Int.cast_one, one_mul]
  have hcond : (0.4 : ℝ) ≤ Real.sqrt 3 * (x - 1) ∧
      (0.4 : ℝ) ≤ Real.sqrt 3 * (1 - (x - 1)) := by
    refine ⟨h3, ?_⟩
    have he : (1 : ℝ) - (x - 1) = 2 - x := by ring
    rw [he]
    exact h4
  rw [if_pos hcond]
  norm_num

theorem find_trident_15 :
    find_trident ((1.5 : ℝ), (0.4 : ℝ)) 1 = ((2, 0), (4, 0), (3, 1)) :=
  find_trident_eval_mid 1.5 (by norm_num) (by norm_num)
    (by nlinarith [sqrt3_gt_17]) (by nlinarith [sqrt3_gt_17])

theorem find_trident_16 :
    find_trident ((1.6 : ℝ), (0.4 : ℝ)) 1 = ((2, 0), (4, 0), (3, 1)) :=
  find_trident_eval_mid 1.6 (by norm_num) (by norm_num)
    (by nlinarith [sqrt3_gt_17]) (by nlinarith [sqrt3_gt_17])

theorem find_trident_17 :
    find_trident ((1.7 : ℝ), (0.4 : ℝ)) 1 = ((2, 0), (4, 0), (3, 1)) :=
  find_trident_eval_mid 1.7 (by norm_num) (by norm_num)
    (by nlinarith [sqrt3_gt_17]) (by nlinarith [sqrt3_gt_17])

theorem coord_2_0 : coord_from_ind ((2 : ℤ), (0 : ℤ)) 1 = ((1 : ℝ), (0 : ℝ)) := by
  unfold coord_from_ind
  norm_num

theorem coord_4_0 : coord_from_ind ((4 : ℤ), (0 : ℤ)) 1 = ((2 : ℝ), (0 : ℝ)) := by
  unfold coord_from_ind
  norm_num

theorem coord_3_1 :
    coord_from_ind ((3 : ℤ), (1 : ℤ)) 1 = ((1.5 : ℝ), Real.sqrt 3 / 2) := by
  unfold coord_from_ind Y_FACT
  norm_num

theorem norm2_vert (y : ℝ) : norm2 ((0 : ℝ), y) = |y| := by
  unfold norm2
  rw [show (0 : ℝ) ^ 2 + y ^ 2 = y ^ 2 by ring, Real.sqrt_sq_eq_abs]

theorem dist2node_15_to_center :
    dist2node ((1.5 : ℝ), (0.4 : ℝ)) ((3 : ℤ), (1 : ℤ)) 1 = Real.sqrt 3 / 2 - 0.4 := by
  unfold dist2node
  rw [coord_3_1]
  have he : ((1.5 : ℝ), (0.4 : ℝ)) - ((1.5 : ℝ), Real.sqrt 3 / 2) =
      ((0 : ℝ), (0.4 : ℝ) - Real.sqrt 3 / 2) := by
    refine Prod.ext_iff.mpr ⟨?_, ?_⟩ <;>
      simp [Prod.fst_sub, Prod.snd_sub]
  rw [he, norm2_vert, abs_of_neg (by linarith [sqrt3_gt_17])]
  ring

theorem dist2node_15_to_left_gt :
    (0.6 : ℝ) < dist2node ((1.5 : ℝ), (0.4 : ℝ)) ((2 : ℤ), (0 : ℤ)) 1 := by
  unfold dist2node
  rw [coord_2_0]
  have he : ((1.5 : ℝ), (0.4 : ℝ)) - ((1 : ℝ), (0 : ℝ)) = ((0.5 : ℝ), (0.4 : ℝ)) := by
    refine Prod.ext_iff.mpr ⟨?_, ?_⟩ <;> simp [Prod.fst_sub, Prod.snd_sub] <;> norm_num
  rw [he]
  have hsq := sq_norm2 ((0.5 : ℝ), (0.4 : ℝ))
  nlinarith [norm2_nonneg ((0.5 : ℝ), (0.4 : ℝ))]

theorem dist2node_15_to_right_gt :
    (0.6 : ℝ) < dist2node ((1.5 : ℝ), (0.4 : ℝ)) ((4 : ℤ), (0 : ℤ)) 1 := by
  unfold dist2node
  rw [coord_4_0]
  have he : ((1.5 : ℝ), (0.4 : ℝ)) - ((2 : ℝ), (0 : ℝ)) = ((-0.5 : ℝ), (0.4 : ℝ)) := by
    refine Prod.ext_iff.mpr ⟨?_, ?_⟩ <;> simp [Prod.fst_sub, Prod.snd_sub] <;> norm_num
  rw [he]
  have hsq := sq_norm2 ((-0.5 : ℝ), (0.4 : ℝ))
  nlinarith [norm2_nonneg ((-0.5 : ℝ), (0.4 : ℝ))]

theorem av_step_k1_center {s : ℝ} {g : Grid} {loc last : Pt} {L R C : ℤ × ℤ}
    (hf : find_trident last s = (L, R, C))
    (hL : g L = 0) (hR : g R = 0) (hC : g C ≠ 0) :
    av_step s g loc last =
      some (loc +
        ((((dist2node last C s + dist2node last R s - dist2node last L s) /
            (dist2node last L s + dist2node last C s + dist2node last R s)) •
              (coord_from_ind C s + g C - coord_from_ind L s) +
          ((dist2node last C s + dist2node last L s - dist2node last R s) /
            (dist2node last L s + dist2node last C s + dist2node last R s)) •
              (coord_from_ind C s + g C - coord_from_ind R s)) +
          ((dist2node last L s + dist2node last R s - dist2node last C s) /
            (dist2node last L s + dist2node last C s + dist2node last R s)) • g C),
        update_node (update_node (update_node g
          (coord_from_ind C s + g C - coord_from_ind L s) L)
          (coord_from_ind C s + g C - coord_from_ind R s) R) (g C) C) := by
  simp [av_step, hf, visitFlag_eq_zero hL, visitFlag_eq_zero hR, visitFlag_eq_one hC]

theorem norm2_one_zero : norm2 ((1 : ℝ), (0 : ℝ)) = 1 := by
  unfold norm2
  norm_num

theorem norm2_neg_one_zero : norm2 ((-1 : ℝ), (0 : ℝ)) = 1 := by
  unfold norm2
  norm_num

/-- Claim C10: in the already-visited branch of update_node the divisor
len(vec) + len(hist) is strictly positive for every incoming vector, because
that branch runs only when the stored vector has a nonzero component; the
division never divides by zero and the branch computes the documented convex
step. -/
theorem update_node_divisor_pos (g : Grid) (idx : ℤ × ℤ) (v : Pt)
    (h : ¬((g idx).1 = 0 ∧ (g idx).2 = 0)) :
    0 < norm2 v + norm2 (g idx) ∧
      update_node g v idx idx =
        g idx + (norm2 v / (norm2 v + norm2 (g idx))) • (v - g idx) := by
  have hg : g idx ≠ 0 := fun e => h ((pair_eq_zero_iff _).mpr e)
  exact ⟨add_pos_of_nonneg_of_pos (norm2_nonneg v) (norm2_pos hg),
    update_node_visited g v idx hg⟩

/-- Witness for C10 at a concrete nonempty node and incoming vector. -/
theorem update_node_divisor_pos_witness :
    ¬((gOne (0, 0)).1 = 0 ∧ (gOne (0, 0)).2 = 0) ∧
      (0 < norm2 ((3 : ℝ), (4 : ℝ)) + norm2 (gOne (0, 0)) ∧
        update_node gOne ((3 : ℝ), (4 : ℝ)) (0, 0) (0, 0) =
          gOne (0, 0) + (norm2 ((3 : ℝ), (4 : ℝ)) /
            (norm2 ((3 : ℝ), (4 : ℝ)) + norm2 (gOne (0, 0)))) •
              (((3 : ℝ), (4 : ℝ)) - gOne (0, 0))) := by
  have h : ¬((gOne (0, 0)).1 = 0 ∧ (gOne (0, 0)).2 = 0) := by
    intro hc
    have : (1 : ℝ) = 0 := hc.1
    norm_num at this
  exact ⟨h, update_node_divisor_pos gOne ((0 : ℤ), (0 : ℤ)) ((3 : ℝ), (4 : ℝ)) h⟩

/-- Claim C9: update_node is a contraction toward the incoming vector: for a
nonzero stored vector the distance from the stored vector to the incoming
vector does not increase. -/
theorem update_node_contraction (g : Grid) (idx : ℤ × ℤ) (v : Pt)
    (h : g idx ≠ 0) :
    norm2 (update_node g v idx idx - v) ≤ norm2 (g idx - v) := by
  rw [update_node_visited g v idx h]
  set a := norm2 v / (norm2 v + norm2 (g idx)) with ha
  have hden : 0 < norm2 v + norm2 (g idx) :=
    add_pos_of_nonneg_of_pos (norm2_nonneg v) (norm2_pos h)
  have ha0 : 0 ≤ a := div_nonneg (norm2_nonneg v) hden.le
  have ha1 : a ≤ 1 := (div_le_one hden).mpr
    (le_add_of_nonneg_right (norm2_nonneg (g idx)))
  have key : g idx + a • (v - g idx) - v = (1 - a) • (g idx - v) := by
    refine Prod.ext_iff.mpr ⟨?_, ?_⟩ <;>
      simp only [Prod.fst_add, Prod.snd_add, Prod.fst_sub, Prod.snd_sub,
        Prod.smul_fst, Prod.smul_snd, smul_eq_mul] <;> ring
  rw [key, norm2_smul, abs_of_nonneg (by linarith)]
  exact mul_le_of_le_one_left (norm2_nonneg _) (by linarith)

/-- Witness for C9 at a concrete nonempty node and incoming vector. -/
theorem update_node_contraction_witness :
    gOne (0, 0) ≠ 0 ∧
      norm2 (update_node gOne ((3 : ℝ), (0 : ℝ)) (0, 0) (0, 0) - ((3 : ℝ), (0 : ℝ))) ≤
        norm2 (gOne (0, 0) - ((3 : ℝ), (0 : ℝ))) :=
  ⟨gOne_ne_zero _,
    update_node_contraction gOne ((0 : ℤ), (0 : ℤ)) ((3 : ℝ), (0 : ℝ)) (gOne_ne_zero _)⟩

/-- Counterexample to C7 as stated: a node holding the nonzero vector (1, 0),
updated with the incoming vector (-1, 0), returns to exactly zero. -/
theorem update_node_zero_counterexample :
    gOne (0, 0) ≠ 0 ∧ update_node gOne ((-1 : ℝ), (0 : ℝ)) (0, 0) (0, 0) = 0 := by
  refine ⟨gOne_ne_zero _, ?_⟩
  rw [update_node_visited gOne ((-1 : ℝ), (0 : ℝ)) (0, 0) (gOne_ne_zero _)]
  have hg : gOne ((0 : ℤ), (0 : ℤ)) = ((1 : ℝ), (0 : ℝ)) := rfl
  rw [hg, norm2_neg_one_zero, norm2_one_zero]
  refine Prod.ext_iff.mpr ⟨?_, ?_⟩ <;>
    simp only [Prod.fst_add, Prod.snd_add, Prod.fst_sub, Prod.snd_sub,
      Prod.smul_fst, Prod.smul_snd, smul_eq_mul, Prod.fst_zero, Prod.snd_zero] <;>
    norm_num

/-- Claim C7 (amended): once a grid node holds a nonzero vector, update_node
keeps it nonzero for every incoming vector except the exact negation of the
stored vector; with v = -h the node returns to exactly zero. -/
theorem update_node_nonzero_preserved (g : Grid) (idx : ℤ × ℤ) (v : Pt)
    (h : g idx ≠ 0) (hv : v ≠ -(g idx)) :
    update_node g v idx idx ≠ 0 := by
  rw [update_node_visited g v idx h]
  intro hc
  have hnh : 0 < norm2 (g idx) := norm2_pos h
  have hnv : 0 ≤ norm2 v := norm2_nonneg v
  have hden : 0 < norm2 v + norm2 (g idx) := by linarith
  set nh := norm2 (g idx) with hnhdef
  set nv := norm2 v with hnvdef
  have hc1 : (g idx).1 + nv / (nv + nh) * (v.1 - (g idx).1) = 0 := by
    have := (Prod.ext_iff.mp hc).1
    simpa [Prod.fst_add, Prod.smul_fst, Prod.fst_sub, smul_eq_mul] using this
  have hc2 : (g idx).2 + nv / (nv + nh) * (v.2 - (g idx).2) = 0 := by
    have := (Prod.ext_iff.mp hc).2
    simpa [Prod.snd_add, Prod.smul_snd, Prod.snd_sub, smul_eq_mul] using this
  have hdz : nv + nh ≠ 0 := by linarith
  have e1 : nh * (g idx).1 + nv * v.1 = 0 := by
    field_simp at hc1
    linarith [hc1]
  have e2 : nh * (g idx).2 + nv * v.2 = 0 := by
    field_simp at hc2
    linarith [hc2]
  have hh2 : nh ^ 2 = (g idx).1 ^ 2 + (g idx).2 ^ 2 := sq_norm2 (g idx)
  have hv2 : nv ^ 2 = v.1 ^ 2 + v.2 ^ 2 := sq_norm2 v
  have q1 : (nh * (g idx).1) ^ 2 = (nv * v.1) ^ 2 := by
    linear_combination (nh * (g idx).1 - nv * v.1) * e1
  have q2 : (nh * (g idx).2) ^ 2 = (nv * v.2) ^ 2 := by
    linear_combination (nh * (g idx).2 - nv * v.2) * e2
  have h4 : nh ^ 4 = nv ^ 4 := by
    linear_combination nh ^ 2 * hh2 - nv ^ 2 * hv2 + q1 + q2
  have hfac : (nh ^ 2 - nv ^ 2) * (nh ^ 2 + nv ^ 2) = 0 := by linear_combination h4
  have h2eq : nh ^ 2 = nv ^ 2 := by
    rcases mul_eq_zero.mp hfac with hz | hz
    · linarith
    · nlinarith
  have hfac2 : (nh - nv) * (nh + nv) = 0 := by linear_combination h2eq
  have heq : nh = nv := by
    rcases mul_eq_zero.mp hfac2 with hz | hz
    · linarith
    · linarith
  have hv1 : v.1 = -(g idx).1 := by
    have : nh * ((g idx).1 + v.1) = 0 := by
      rw [heq] at e1 ⊢
      linarith [e1]
    have hsum : (g idx).1 + v.1 = 0 := by
      rcases mul_eq_zero.mp this with hz | hz
      · exact absurd hz (by linarith)
      · exact hz
    linarith
  have hv2c : v.2 = -(g idx).2 := by
    have : nh * ((g idx).2 + v.2) = 0 := by
      rw [heq] at e2 ⊢
      linarith [e2]
    have hsum : (g idx).2 + v.2 = 0 := by
      rcases mul_eq_zero.mp this with hz | hz
      · exact absurd hz (by linarith)
      · exact hz
    linarith
  exact hv (Prod.ext_iff.mpr ⟨by simpa using hv1, by simpa using hv2c⟩)

/-- Witness for the amended C7 at a concrete node and non-antipodal update. -/
theorem update_node_nonzero_preserved_witness :
    gOne (0, 0) ≠ 0 ∧ ((2 : ℝ), (0 : ℝ)) ≠ -(gOne (0, 0)) ∧
      update_node gOne ((2 : ℝ), (0 : ℝ)) (0, 0) (0, 0) ≠ 0 := by
  have hv : ((2 : ℝ), (0 : ℝ)) ≠ -(gOne (0, 0)) := by
    intro hc
    have h1 := (Prod.ext_iff.mp hc).1
    have : (2 : ℝ) = -1 := by simpa [gOne, Prod.fst_neg] using h1
    norm_num at this
  exact ⟨gOne_ne_zero _, hv,
    update_node_nonzero_preserved gOne ((0 : ℤ), (0 : ℤ)) ((2 : ℝ), (0 : ℝ))
      (gOne_ne_zero _) hv⟩

/-- Claim C1: in av_traj, when exactly two of the three trident nodes are
visited, the next point is p plus the two visited vectors weighted by their
own node's distance from the current point divided by the sum of the two
distances (so the farther node gets more weight), and the single empty node
is then populated via update_node with the vector from its coordinates to
the next point. -/
theorem av_traj_two_visited (s : ℝ) (g : Grid) (p : Pt) (L R C : ℤ × ℤ)
    (hf : find_trident p s = (L, R, C)) :
    (g L = 0 → g R ≠ 0 → g C ≠ 0 →
      av_step s g p p =
        some (p + ((dist2node p R s / (dist2node p R s + dist2node p C s)) • g R +
            (dist2node p C s / (dist2node p R s + dist2node p C s)) • g C),
          update_node g
            ((p + ((dist2node p R s / (dist2node p R s + dist2node p C s)) • g R +
              (dist2node p C s / (dist2node p R s + dist2node p C s)) • g C)) -
                coord_from_ind L s) L)) ∧
    (g R = 0 → g L ≠ 0 → g C ≠ 0 →
      av_step s g p p =
        some (p + ((dist2node p L s / (dist2node p L s + dist2node p C s)) • g L +
            (dist2node p C s / (dist2node p L s + dist2node p C s)) • g C),
          update_node g
            ((p + ((dist2node p L s / (dist2node p L s + dist2node p C s)) • g L +
              (dist2node p C s / (dist2node p L s + dist2node p C s)) • g C)) -
                coord_from_ind R s) R)) ∧
    (g C = 0 → g L ≠ 0 → g R ≠ 0 →
      av_step s g p p =
        some (p + ((dist2node p L s / (dist2node p L s + dist2node p R s)) • g L +
            (dist2node p R s / (dist2node p L s + dist2node p R s)) • g R),
          update_node g
            ((p + ((dist2node p L s / (dist2node p L s + dist2node p R s)) • g L +
              (dist2node p R s / (dist2node p L s + dist2node p R s)) • g R)) -
                coord_from_ind C s) C)) :=
  ⟨fun hL hR hC => av_step_k2_left hf hL hR hC,
    fun hR hL hC => av_step_k2_right hf hL hR hC,
    fun hC hL hR => av_step_k2_center hf hL hR hC⟩

/-- The concrete grid of the C1 witness: the trident node (2, 0) is empty,
all other nodes hold the vector (1, 0). -/
def gC1 : Grid := fun idx => if idx = ((2 : ℤ), (0 : ℤ)) then 0 else (1, 0)

theorem gC1_left : gC1 ((2 : ℤ), (0 : ℤ)) = 0 := by simp [gC1]

theorem gC1_right : gC1 ((4 : ℤ), (0 : ℤ)) ≠ 0 := by
  intro hc
  have h1 := (Prod.ext_iff.mp hc).1
  have h2 : (1 : ℝ) = 0 := by simpa [gC1] using h1
  norm_num at h2

theorem gC1_center : gC1 ((3 : ℤ), (1 : ℤ)) ≠ 0 := by
  intro hc
  have h1 := (Prod.ext_iff.mp hc).1
  have h2 : (1 : ℝ) = 0 := by simpa [gC1] using h1
  norm_num at h2

/-- Witness for C1 at the concrete point (1.5, 0.4) with spacing 1 and a
trident whose left node is empty. -/
theorem av_traj_two_visited_witness :
    find_trident ((1.5 : ℝ), (0.4 : ℝ)) 1 = ((2, 0), (4, 0), (3, 1)) ∧
      gC1 (2, 0) = 0 ∧ gC1 (4, 0) ≠ 0 ∧ gC1 (3, 1) ≠ 0 ∧
      av_step 1 gC1 ((1.5 : ℝ), (0.4 : ℝ)) ((1.5 : ℝ), (0.4 : ℝ)) =
        some (((1.5 : ℝ), (0.4 : ℝ)) +
            ((dist2node ((1.5 : ℝ), (0.4 : ℝ)) (4, 0) 1 /
                (dist2node ((1.5 : ℝ), (0.4 : ℝ)) (4, 0) 1 +
                  dist2node ((1.5 : ℝ), (0.4 : ℝ)) (3, 1) 1)) • gC1 (4, 0) +
              (dist2node ((1.5 : ℝ), (0.4 : ℝ)) (3, 1) 1 /
                (dist2node ((1.5 : ℝ), (0.4 : ℝ)) (4, 0) 1 +
                  dist2node ((1.5 : ℝ), (0.4 : ℝ)) (3, 1) 1)) • gC1 (3, 1)),
          update_node gC1
            ((((1.5 : ℝ), (0.4 : ℝ)) +
              ((dist2node ((1.5 : ℝ), (0.4 : ℝ)) (4, 0) 1 /
                  (dist2node ((1.5 : ℝ), (0.4 : ℝ)) (4, 0) 1 +
                    dist2node ((1.5 : ℝ), (0.4 : ℝ)) (3, 1) 1)) • gC1 (4, 0) +
                (dist2node ((1.5 : ℝ), (0.4 : ℝ)) (3, 1) 1 /
                  (dist2node ((1.5 : ℝ), (0.4 : ℝ)) (4, 0) 1 +
                    dist2node ((1.5 : ℝ), (0.4 : ℝ)) (3, 1) 1)) • gC1 (3, 1))) -
                coord_from_ind (2, 0) 1) (2, 0)) :=
  ⟨find_trident_15, gC1_left, gC1_right, gC1_center,
    (av_traj_two_visited 1 gC1 ((1.5 : ℝ), (0.4 : ℝ)) (2, 0) (4, 0) (3, 1)
      find_trident_15).1 gC1_left gC1_right gC1_center⟩

/-- The concrete grid of the C2 counterexample: only the trident node (2, 0)
is visited, holding the vector (1, 0); all other nodes are empty. -/
def gC2 : Grid := fun idx => if idx = ((2 : ℤ), (0 : ℤ)) then (1, 0) else 0

theorem gC2_left : gC2 ((2 : ℤ), (0 : ℤ)) ≠ 0 := by
  intro hc
  have h1 := (Prod.ext_iff.mp hc).1
  have h2 : (1 : ℝ) = 0 := by simpa [gC2] using h1
  norm_num at h2

theorem gC2_left_val : gC2 ((2 : ℤ), (0 : ℤ)) = ((1 : ℝ), (0 : ℝ)) := by simp [gC2]

theorem gC2_right : gC2 ((4 : ℤ), (0 : ℤ)) = 0 := by simp [gC2]

theorem gC2_center : gC2 ((3 : ℤ), (1 : ℤ)) = 0 := by simp [gC2]

/-- Counterexample to C2 as stated: at the point (1.5, 0.4) with spacing 1
and only the left trident node visited with vector (1, 0), the next point
computed by the loop body is not p + v_L = (2.5, 0.4), because the Python
if/if/else dispatch falls through into the all-visited weighted-sum block
after the k = 1 synthesis. -/
theorem av_traj_one_visited_counterexample :
    (av_step 1 gC2 ((1.5 : ℝ), (0.4 : ℝ)) ((1.5 : ℝ), (0.4 : ℝ))).map Prod.fst ≠
      some ((2.5 : ℝ), (0.4 : ℝ)) := by
  rw [av_step_k1_left find_trident_15 gC2_left gC2_right gC2_center]
  rw [Option.map_some']
  intro hc
  have h2 := (Prod.ext_iff.mp (Option.some.inj hc)).2
  rw [gC2_left_val, coord_2_0, coord_4_0, coord_3_1, dist2node_15_to_center] at h2
  set dL := dist2node ((1.5 : ℝ), (0.4 : ℝ)) ((2 : ℤ), (0 : ℤ)) 1 with hdL
  set dR := dist2node ((1.5 : ℝ), (0.4 : ℝ)) ((4 : ℤ), (0 : ℤ)) 1 with hdR
  have hL6 : (0.6 : ℝ) < dL := dist2node_15_to_left_gt
  have hR6 : (0.6 : ℝ) < dR := dist2node_15_to_right_gt
  have hs17 := sqrt3_gt_17
  have hs18 := sqrt3_lt_18
  have hden : (0 : ℝ) < dL + (Real.sqrt 3 / 2 - 0.4) + dR := by linarith
  have hwC : (0 : ℝ) < (dL + dR - (Real.sqrt 3 / 2 - 0.4)) /
      (dL + (Real.sqrt 3 / 2 - 0.4) + dR) := by
    apply div_pos
    · linarith
    · exact hden
  simp only [Prod.snd_add, Prod.smul_snd, smul_eq_mul, Prod.snd_sub] at h2
  norm_num at h2
  rcases h2 with h2 | h2
  · linarith
  · linarith

/-- Claim C2 (amended): when exactly one trident node n is visited, the loop
body synthesizes the two missing vectors toward the common target
t = coord_from_ind n + v_n, writes all three vectors back via update_node,
and — because the Python if/if/else dispatch then falls into the all-visited
block — the next point is p plus the complementary-weighted sum of the three
synthesized vectors, not p + v_L. -/
theorem av_traj_one_visited (s : ℝ) (g : Grid) (p : Pt) (L R C : ℤ × ℤ)
    (hf : find_trident p s = (L, R, C)) :
    (g L ≠ 0 → g R = 0 → g C = 0 →
      av_step s g p p =
        some (p +
          ((((dist2node p C s + dist2node p R s - dist2node p L s) /
              (dist2node p L s + dist2node p C s + dist2node p R s)) • g L +
            ((dist2node p C s + dist2node p L s - dist2node p R s) /
              (dist2node p L s + dist2node p C s + dist2node p R s)) •
                (coord_from_ind L s + g L - coord_from_ind R s)) +
            ((dist2node p L s + dist2node p R s - dist2node p C s) /
              (dist2node p L s + dist2node p C s + dist2node p R s)) •
                (coord_from_ind L s + g L - coord_from_ind C s)),
          update_node (update_node (update_node g (g L) L)
            (coord_from_ind L s + g L - coord_from_ind R s) R)
            (coord_from_ind L s + g L - coord_from_ind C s) C)) ∧
    (g R ≠ 0 → g L = 0 → g C = 0 →
      av_step s g p p =
        some (p +
          ((((dist2node p C s + dist2node p R s - dist2node p L s) /
              (dist2node p L s + dist2node p C s + dist2node p R s)) •
                (coord_from_ind R s + g R - coord_from_ind L s) +
            ((dist2node p C s + dist2node p L s - dist2node p R s) /
              (dist2node p L s + dist2node p C s + dist2node p R s)) • g R) +
            ((dist2node p L s + dist2node p R s - dist2node p C s) /
              (dist2node p L s + dist2node p C s + dist2node p R s)) •
                (coord_from_ind R s + g R - coord_from_ind C s)),
          update_node (update_node (update_node g
            (coord_from_ind R s + g R - coord_from_ind L s) L) (g R) R)
            (coord_from_ind R s + g R - coord_from_ind C s) C)) ∧
    (g C ≠ 0 → g L = 0 → g R = 0 →
      av_step s g p p =
        some (p +
          ((((dist2node p C s + dist2node p R s - dist2node p L s) /
              (dist2node p L s + dist2node p C s + dist2node p R s)) •
                (coord_from_ind C s + g C - coord_from_ind L s) +
            ((dist2node p C s + dist2node p L s - dist2node p R s) /
              (dist2node p L s + dist2node p C s + dist2node p R s)) •
                (coord_from_ind C s + g C - coord_from_ind R s)) +
            ((dist2node p L s + dist2node p R s - dist2node p C s) /
              (dist2node p L s + dist2node p C s + dist2node p R s)) • g C),
          update_node (update_node (update_node g
            (coord_from_ind C s + g C - coord_from_ind L s) L)
            (coord_from_ind C s + g C - coord_from_ind R s) R) (g C) C)) :=
  ⟨fun hL hR hC => av_step_k1_left hf hL hR hC,
    fun hR hL hC => av_step_k1_right hf hL hR hC,
    fun hC hL hR => av_step_k1_center hf hL hR hC⟩

/-- Witness for the amended C2 at the concrete point (1.5, 0.4) with spacing
1 and only the left trident node visited. -/
theorem av_traj_one_visited_witness :
    find_trident ((1.5 : ℝ), (0.4 : ℝ)) 1 = ((2, 0), (4, 0), (3, 1)) ∧
      gC2 (2, 0) ≠ 0 ∧ gC2 (4, 0) = 0 ∧ gC2 (3, 1) = 0 ∧
      av_step 1 gC2 ((1.5 : ℝ), (0.4 : ℝ)) ((1.5 : ℝ), (0.4 : ℝ)) =
        some (((1.5 : ℝ), (0.4 : ℝ)) +
          ((((dist2node ((1.5 : ℝ), (0.4 : ℝ)) (3, 1) 1 +
              dist2node ((1.5 : ℝ), (0.4 : ℝ)) (4, 0) 1 -
              dist2node ((1.5 : ℝ), (0.4 : ℝ)) (2, 0) 1) /
              (dist2node ((1.5 : ℝ), (0.4 : ℝ)) (2, 0) 1 +
                dist2node ((1.5 : ℝ), (0.4 : ℝ)) (3, 1) 1 +
                dist2node ((1.5 : ℝ), (0.4 : ℝ)) (4, 0) 1)) • gC2 (2, 0) +
            ((dist2node ((1.5 : ℝ), (0.4 : ℝ)) (3, 1) 1 +
              dist2node ((1.5 : ℝ), (0.4 : ℝ)) (2, 0) 1 -
              dist2node ((1.5 : ℝ), (0.4 : ℝ)) (4, 0) 1) /
              (dist2node ((1.5 : ℝ), (0.4 : ℝ)) (2, 0) 1 +
                dist2node ((1.5 : ℝ), (0.4 : ℝ)) (3, 1) 1 +
                dist2node ((1.5 : ℝ), (0.4 : ℝ)) (4, 0) 1)) •
                  (coord_from_ind (2, 0) 1 + gC2 (2, 0) - coord_from_ind (4, 0) 1)) +
            ((dist2node ((1.5 : ℝ), (0.4 : ℝ)) (2, 0) 1 +
              dist2node ((1.5 : ℝ), (0.4 : ℝ)) (4, 0) 1 -
              dist2node ((1.5 : ℝ), (0.4 : ℝ)) (3, 1) 1) /
              (dist2node ((1.5 : ℝ), (0.4 : ℝ)) (2, 0) 1 +
                dist2node ((1.5 : ℝ), (0.4 : ℝ)) (3, 1) 1 +
                dist2node ((1.5 : ℝ), (0.4 : ℝ)) (4, 0) 1)) •
                  (coord_from_ind (2, 0) 1 + gC2 (2, 0) - coord_from_ind (3, 1) 1)),
          update_node (update_node (update_node gC2 (gC2 (2, 0)) (2, 0))
            (coord_from_ind (2, 0) 1 + gC2 (2, 0) - coord_from_ind (4, 0) 1) (4, 0))
            (coord_from_ind (2, 0) 1 + gC2 (2, 0) - coord_from_ind (3, 1) 1) (3, 1)) :=
  ⟨find_trident_15, gC2_left, gC2_right, gC2_center,
    (av_traj_one_visited 1 gC2 ((1.5 : ℝ), (0.4 : ℝ)) (2, 0) (4, 0) (3, 1)
      find_trident_15).1 gC2_left gC2_right gC2_center⟩

theorem norm2_eval_sq (u : Pt) (r : ℝ) (hr : 0 ≤ r) (h : u.1 ^ 2 + u.2 ^ 2 = r ^ 2) :
    norm2 u = r := by
  unfold norm2
  rw [h, Real.sqrt_sq hr]

/-- The three nodes of any trident sit at the vertices of an equilateral
triangle with side equal to the node spacing. -/
theorem trident_side_lengths {p : Pt} {s : ℝ} {L R C : ℤ × ℤ}
    (hf : find_trident p s = (L, R, C)) (hs : 0 ≤ s) :
    norm2 (coord_from_ind R s - coord_from_ind L s) = s ∧
      norm2 (coord_from_ind C s - coord_from_ind L s) = s ∧
      norm2 (coord_from_ind C s - coord_from_ind R s) = s := by
  have h3 : Real.sqrt 3 ^ 2 = 3 := Real.sq_sqrt (by norm_num)
  obtain ⟨hR, hC⟩ := find_trident_shape p s
  rw [hf] at hR hC
  dsimp only at hR hC
  refine ⟨?_, ?_, ?_⟩
  · apply norm2_eval_sq _ s hs
    rw [hR]
    unfold coord_from_ind
    simp only [Prod.fst_sub, Prod.snd_sub]
    push_cast
    ring
  · apply norm2_eval_sq _ s hs
    rcases hC with hC | hC <;>
      · rw [hC]
        unfold coord_from_ind Y_FACT
        simp only [Prod.fst_sub, Prod.snd_sub]
        push_cast
        linear_combination (s ^ 2 / 4) * h3
  · apply norm2_eval_sq _ s hs
    rcases hC with hC | hC <;>
      · rw [hC, hR]
        unfold coord_from_ind Y_FACT
        simp only [Prod.fst_sub, Prod.snd_sub]
        push_cast
        linear_combination (s ^ 2 / 4) * h3

/-- Triangle inequality in the form used for the trident weights: the
distance between two nodes is at most the sum of the distances from any
point to the two nodes. -/
theorem dist_sum_ge (p u v : Pt) : norm2 (v - u) ≤ norm2 (p - u) + norm2 (p - v) := by
  have h := norm2_sub_le (p - u) (p - v)
  have he : (p - u) - (p - v) = v - u := by
    refine Prod.ext_iff.mpr ⟨?_, ?_⟩ <;>
      simp only [Prod.fst_sub, Prod.snd_sub] <;> ring
  rw [he] at h
  exact h

/-- Convexity bound: a convex combination of three points is at distance at
most the weighted sum of the side lengths from the first point. -/
theorem hull_dist_le (p A B C : Pt) (a b c : ℝ) (hsum : a + b + c = 1)
    (hp : p = a • A + b • B + c • C) :
    norm2 (p - A) ≤ |b| * norm2 (B - A) + |c| * norm2 (C - A) := by
  have key : p - A = b • (B - A) + c • (C - A) := by
    rw [hp]
    refine Prod.ext_iff.mpr ⟨?_, ?_⟩ <;>
      simp only [Prod.fst_sub, Prod.snd_sub, Prod.fst_add, Prod.snd_add,
        Prod.smul_fst, Prod.smul_snd, smul_eq_mul]
    · linear_combination A.1 * hsum
    · linear_combination A.2 * hsum
  rw [key]
  calc norm2 (b • (B - A) + c • (C - A)) ≤
      norm2 (b • (B - A)) + norm2 (c • (C - A)) := norm2_add_le _ _
    _ = |b| * norm2 (B - A) + |c| * norm2 (C - A) := by rw [norm2_smul, norm2_smul]

/-- Claim C5: in the all-visited synthesis case the three complementary
weights sum to 1, each weight is nonnegative whenever the current point lies
inside its trident's triangle (as a convex combination of the three node
positions), and the grid is not mutated. -/
theorem av_traj_k3_weights (s : ℝ) (g : Grid) (p : Pt) (L R C : ℤ × ℤ)
    (hf : find_trident p s = (L, R, C)) (hs : 0 < s)
    (hL : g L ≠ 0) (hR : g R ≠ 0) (hC : g C ≠ 0) :
    av_step s g p p =
      some (p +
        ((((dist2node p C s + dist2node p R s - dist2node p L s) /
            (dist2node p L s + dist2node p C s + dist2node p R s)) • g L +
          ((dist2node p C s + dist2node p L s - dist2node p R s) /
            (dist2node p L s + dist2node p C s + dist2node p R s)) • g R) +
          ((dist2node p L s + dist2node p R s - dist2node p C s) /
            (dist2node p L s + dist2node p C s + dist2node p R s)) • g C), g) ∧
    (dist2node p C s + dist2node p R s - dist2node p L s) /
        (dist2node p L s + dist2node p C s + dist2node p R s) +
      (dist2node p C s + dist2node p L s - dist2node p R s) /
        (dist2node p L s + dist2node p C s + dist2node p R s) +
      (dist2node p L s + dist2node p R s - dist2node p C s) /
        (dist2node p L s + dist2node p C s + dist2node p R s) = 1 ∧
    (∀ a b c : ℝ, 0 ≤ a → 0 ≤ b → 0 ≤ c → a + b + c = 1 →
      p = a • coord_from_ind L s + b • coord_from_ind R s + c • coord_from_ind C s →
      0 ≤ (dist2node p C s + dist2node p R s - dist2node p L s) /
          (dist2node p L s + dist2node p C s + dist2node p R s) ∧
        0 ≤ (dist2node p C s + dist2node p L s - dist2node p R s) /
          (dist2node p L s + dist2node p C s + dist2node p R s) ∧
        0 ≤ (dist2node p L s + dist2node p R s - dist2node p C s) /
          (dist2node p L s + dist2node p C s + dist2node p R s)) := by
  obtain ⟨sLR, sLC, sRC⟩ := trident_side_lengths hf hs.le
  have tri1 : s ≤ dist2node p L s + dist2node p R s := by
    have h := dist_sum_ge p (coord_from_ind L s) (coord_from_ind R s)
    rw [sLR] at h
    exact h
  have tri2 : s ≤ dist2node p L s + dist2node p C s := by
    have h := dist_sum_ge p (coord_from_ind L s) (coord_from_ind C s)
    rw [sLC] at h
    exact h
  have tri3 : s ≤ dist2node p R s + dist2node p C s := by
    have h := dist_sum_ge p (coord_from_ind R s) (coord_from_ind C s)
    rw [sRC] at h
    exact h
  have hC0 : 0 ≤ dist2node p C s := norm2_nonneg _
  have hden : 0 < dist2node p L s + dist2node p C s + dist2node p R s := by linarith
  refine ⟨av_step_k3 hf hL hR hC, by field_simp; ring, ?_⟩
  intro a b c ha hb hc hsum hp
  have bndL : dist2node p L s ≤ s := by
    have h := hull_dist_le p (coord_from_ind L s) (coord_from_ind R s)
      (coord_from_ind C s) a b c hsum hp
    rw [sLR, sLC, abs_of_nonneg hb, abs_of_nonneg hc] at h
    have hd : dist2node p L s = norm2 (p - coord_from_ind L s) := rfl
    rw [hd]
    nlinarith [mul_nonneg ha hs.le]
  have hp2 : p = b • coord_from_ind R s + a • coord_from_ind L s +
      c • coord_from_ind C s := by
    rw [hp]
    refine Prod.ext_iff.mpr ⟨?_, ?_⟩ <;>
      simp only [Prod.fst_add, Prod.snd_add, Prod.smul_fst, Prod.smul_snd,
        smul_eq_mul] <;> ring
  have sRL : norm2 (coord_from_ind L s - coord_from_ind R s) = s := by
    rw [← neg_sub (coord_from_ind R s) (coord_from_ind L s), norm2_neg, sLR]
  have bndR : dist2node p R s ≤ s := by
    have h := hull_dist_le p (coord_from_ind R s) (coord_from_ind L s)
      (coord_from_ind C s) b a c (by linarith) hp2
    rw [sRL, sRC, abs_of_nonneg ha, abs_of_nonneg hc] at h
    have hd : dist2node p R s = norm2 (p - coord_from_ind R s) := rfl
    rw [hd]
    nlinarith [mul_nonneg hb hs.le]
  have hp3 : p = c • coord_from_ind C s + a • coord_from_ind L s +
      b • coord_from_ind R s := by
    rw [hp]
    refine Prod.ext_iff.mpr ⟨?_, ?_⟩ <;>
      simp only [Prod.fst_add, Prod.snd_add, Prod.smul_fst, Prod.smul_snd,
        smul_eq_mul] <;> ring
  have sCL : norm2 (coord_from_ind L s - coord_from_ind C s) = s := by
    rw [← neg_sub (coord_from_ind C s) (coord_from_ind L s), norm2_neg, sLC]
  have sCR : norm2 (coord_from_ind R s - coord_from_ind C s) = s := by
    rw [← neg_sub (coord_from_ind C s) (coord_from_ind R s), norm2_neg, sRC]
  have bndC : dist2node p C s ≤ s := by
    have h := hull_dist_le p (coord_from_ind C s) (coord_from_ind L s)
      (coord_from_ind R s) c a b (by linarith) hp3
    rw [sCL, sCR, abs_of_nonneg ha, abs_of_nonneg hb] at h
    have hd : dist2node p C s = norm2 (p - coord_from_ind C s) := rfl
    rw [hd]
    nlinarith [mul_nonneg hc hs.le]
  refine ⟨div_nonneg (by linarith) hden.le, div_nonneg (by linarith) hden.le,
    div_nonneg (by linarith) hden.le⟩

/-- Witness for C5 at the concrete point (1.5, 0.4) with spacing 1 and all
three trident nodes visited. -/
theorem av_traj_k3_weights_witness :
    find_trident ((1.5 : ℝ), (0.4 : ℝ)) 1 = ((2, 0), (4, 0), (3, 1)) ∧
      (0 : ℝ) < 1 ∧ gOne (2, 0) ≠ 0 ∧ gOne (4, 0) ≠ 0 ∧ gOne (3, 1) ≠ 0 ∧
      (av_step 1 gOne ((1.5 : ℝ), (0.4 : ℝ)) ((1.5 : ℝ), (0.4 : ℝ)) =
        some (((1.5 : ℝ), (0.4 : ℝ)) +
          ((((dist2node ((1.5 : ℝ), (0.4 : ℝ)) (3, 1) 1 +
              dist2node ((1.5 : ℝ), (0.4 : ℝ)) (4, 0) 1 -
              dist2node ((1.5 : ℝ), (0.4 : ℝ)) (2, 0) 1) /
              (dist2node ((1.5 : ℝ), (0.4 : ℝ)) (2, 0) 1 +
                dist2node ((1.5 : ℝ), (0.4 : ℝ)) (3, 1) 1 +
                dist2node ((1.5 : ℝ), (0.4 : ℝ)) (4, 0) 1)) • gOne (2, 0) +
            ((dist2node ((1.5 : ℝ), (0.4 : ℝ)) (3, 1) 1 +
              dist2node ((1.5 : ℝ), (0.4 : ℝ)) (2, 0) 1 -
              dist2node ((1.5 : ℝ), (0.4 : ℝ)) (4, 0) 1) /
              (dist2node ((1.5 : ℝ), (0.4 : ℝ)) (2, 0) 1 +
                dist2node ((1.5 : ℝ), (0.4 : ℝ)) (3, 1) 1 +
                dist2node ((1.5 : ℝ), (0.4 : ℝ)) (4, 0) 1)) • gOne (4, 0)) +
            ((dist2node ((1.5 : ℝ), (0.4 : ℝ)) (2, 0) 1 +
              dist2node ((1.5 : ℝ), (0.4 : ℝ)) (4, 0) 1 -
              dist2node ((1.5 : ℝ), (0.4 : ℝ)) (3, 1) 1) /
              (dist2node ((1.5 : ℝ), (0.4 : ℝ)) (2, 0) 1 +
                dist2node ((1.5 : ℝ), (0.4 : ℝ)) (3, 1) 1 +
                dist2node ((1.5 : ℝ), (0.4 : ℝ)) (4, 0) 1)) • gOne (3, 1)), gOne)) ∧
      (dist2node ((1.5 : ℝ), (0.4 : ℝ)) (3, 1) 1 +
          dist2node ((1.5 : ℝ), (0.4 : ℝ)) (4, 0) 1 -
          dist2node ((1.5 : ℝ), (0.4 : ℝ)) (2, 0) 1) /
          (dist2node ((1.5 : ℝ), (0.4 : ℝ)) (2, 0) 1 +
            dist2node ((1.5 : ℝ), (0.4 : ℝ)) (3, 1) 1 +
            dist2node ((1.5 : ℝ), (0.4 : ℝ)) (4, 0) 1) +
        (dist2node ((1.5 : ℝ), (0.4 : ℝ)) (3, 1) 1 +
          dist2node ((1.5 : ℝ), (0.4 : ℝ)) (2, 0) 1 -
          dist2node ((1.5 : ℝ), (0.4 : ℝ)) (4, 0) 1) /
          (dist2node ((1.5 : ℝ), (0.4 : ℝ)) (2, 0) 1 +
            dist2node ((1.5 : ℝ), (0.4 : ℝ)) (3, 1) 1 +
            dist2node ((1.5 : ℝ), (0.4 : ℝ)) (4, 0) 1) +
        (dist2node ((1.5 : ℝ), (0.4 : ℝ)) (2, 0) 1 +
          dist2node ((1.5 : ℝ), (0.4 : ℝ)) (4, 0) 1 -
          dist2node ((1.5 : ℝ), (0.4 : ℝ)) (3, 1) 1) /
          (dist2node ((1.5 : ℝ), (0.4 : ℝ)) (2, 0) 1 +
            dist2node ((1.5 : ℝ), (0.4 : ℝ)) (3, 1) 1 +
            dist2node ((1.5 : ℝ), (0.4 : ℝ)) (4, 0) 1) = 1 := by
  have h := av_traj_k3_weights 1 gOne ((1.5 : ℝ), (0.4 : ℝ)) (2, 0) (4, 0) (3, 1)
    find_trident_15 (by norm_num) (gOne_ne_zero _) (gOne_ne_zero _) (gOne_ne_zero _)
  exact ⟨find_trident_15, by norm_num, gOne_ne_zero _, gOne_ne_zero _, gOne_ne_zero _,
    h.1, h.2.1⟩

/-- The trainer state of BuildGrid besides the grid: node spacing, the two
grid array dimensions, and the training statistics (training_model.py,
lines 72-81 and 118). -/
structure Trainer where
  node_spacing : ℝ
  shape_x : ℕ
  shape_y : ℕ
  average_path_length : ℝ
  grid_update_count : ℕ
  max_coord_count : ℕ
  shortest_segment : ℝ

/-- BuildGrid.check_extents with check_type "triangle" (training_model.py,
lines 121-164): points on the axes are rejected, and the trident indices are
compared against the grid array dimensions. -/
def check_extents_triangle (s : ℝ) (nx ny : ℕ) (loc : Pt) : Prop :=
  loc.1 = 0 ∨ loc.2 = 0 ∨
    ((find_trident loc s).1.1 < 0 ∨
      (find_trident loc s).1.2 + 1 > (ny : ℤ) ∨
      (find_trident loc s).1.2 < 0 ∨
      (find_trident loc s).2.1.1 + 1 > (nx : ℤ) ∨
      (find_trident loc s).2.2.2 < 0 ∨
      (find_trident loc s).2.2.2 + 1 > (ny : ℤ))

/-- The mutable state of the while-loop of av_traj: the grid, the stored
trajectory in reverse order (head is the most recent point), the variables
loc, running_path_length and stop_calc. -/
structure AvState where
  grid : Grid
  traj : List Pt
  loc : Pt
  rpl : ℝ
  stop_calc : Bool

/-- One full iteration of the while-loop of BuildGrid.av_traj
(training_model.py, lines 248-451): stop_calc is reassigned from
check_extents, the dispatch runs on the trident of the last appended point,
the new location is compared to the previous one (break), the three
termination tests may set stop_calc, and the new point is appended.  inl is
a loop exit carrying the returned value and the grid; inr continues. -/
def avBody (tr : Trainer) (σ : AvState) : (Option (List Pt) × Grid) ⊕ AvState :=
  match σ.traj with
  | [] => Sum.inl (none, σ.grid)
  | last :: _ =>
    let stop0 : Bool :=
      decide (check_extents_triangle tr.node_spacing tr.shape_x tr.shape_y σ.loc)
    match av_step tr.node_spacing σ.grid σ.loc last with
    | none => Sum.inl (none, σ.grid)
    | some (loc2, g2) =>
      let newLen := norm2 (loc2 - last)
      let rpl2 := σ.rpl + newLen
      if loc2 = last then Sum.inl (some σ.traj.reverse, g2)
      else
        let c1 : Bool := decide ((σ.traj.length : ℤ) >
          (tr.max_coord_count : ℤ) + pyRound (0.01 * 50 * (tr.max_coord_count : ℝ)))
        let c2 : Bool := decide (tr.shortest_segment >
          newLen + (pyRound (0.01 * 50 * newLen) : ℝ))
        let c3 : Bool := decide (tr.average_path_length < rpl2)
        Sum.inr ⟨g2, loc2 :: σ.traj, loc2, rpl2, stop0 || (c1 || (c2 || c3))⟩

/-- The while-loop of av_traj as a fuel-indexed iteration of avBody; none
means the fuel ran out before the loop exited. -/
def avLoop (tr : Trainer) : ℕ → AvState → Option (Option (List Pt) × Grid)
  | 0, σ => if σ.stop_calc then some (some σ.traj.reverse, σ.grid) else none
  | n + 1, σ =>
    if σ.stop_calc then some (some σ.traj.reverse, σ.grid)
    else
      match avBody tr σ with
      | Sum.inl r => some r
      | Sum.inr σ2 => avLoop tr n σ2

/-- The coordinate-count threshold of av_traj (training_model.py, lines
437-438): max_coord_count plus the rounded 50 percent margin. -/
def lenThreshold (tr : Trainer) : ℤ :=
  (tr.max_coord_count : ℤ) + pyRound (0.01 * 50 * (tr.max_coord_count : ℝ))

/-- Enough fuel for avLoop to always exit: two iterations past the
coordinate-count threshold. -/
def avFuel (tr : Trainer) : ℕ := (lenThreshold tr).toNat + 3

/-- BuildGrid.av_traj (training_model.py, lines 212-452) starting from a
given grid: the loop runs from the singleton trajectory at the start point;
the fuel avFuel always suffices (see the termination theorem), so the
fallback branch is unreachable. -/
def av_traj_run (tr : Trainer) (g : Grid) (start : Pt) : Option (List Pt) × Grid :=
  match avLoop tr (avFuel tr) ⟨g, [start], start, 0, false⟩ with
  | some r => r
  | none => (none, g)

theorem lenThreshold_nonneg (tr : Trainer) : 0 ≤ lenThreshold tr :=
  add_nonneg (Int.natCast_nonneg _) (pyRound_nonneg (by positivity))

/-- Every continuing iteration of the loop appends exactly one point, and
sets the stop flag when the pre-append length exceeds the threshold. -/
theorem avBody_inr (tr : Trainer) (σ σ2 : AvState)
    (h : avBody tr σ = Sum.inr σ2) :
    σ2.traj.length = σ.traj.length + 1 ∧
      ((σ.traj.length : ℤ) > lenThreshold tr → σ2.stop_calc = true) := by
  unfold avBody at h
  rcases hT : σ.traj with _ | ⟨last, rest⟩
  · rw [hT] at h
    simp at h
  · rw [hT] at h
    dsimp only at h
    rcases hA : av_step tr.node_spacing σ.grid σ.loc last with _ | ⟨loc2, g2⟩
    · rw [hA] at h
      simp at h
    · rw [hA] at h
      dsimp only at h
      split_ifs at h with hbrk
      have h2 := (Sum.inr.inj h).symm
      subst h2
      constructor
      · simp [hT]
      · intro hgt
        unfold lenThreshold at hgt
        have hc1 : decide (((last :: rest).length : ℤ) > (tr.max_coord_count : ℤ) +
            pyRound (0.01 * 50 * (tr.max_coord_count : ℝ))) = true :=
          decide_eq_true hgt
        simp only [List.length_cons] at hgt
        simp [hc1]
        refine Or.inr (Or.inl ?_)
        push_cast at hgt ⊢
        linarith

/-- After enough iterations relative to the trajectory length, the loop has
exited. -/
theorem avLoop_isSome_of_len (tr : Trainer) :
    ∀ n (σ : AvState), (lenThreshold tr).toNat + 2 ≤ σ.traj.length + n →
      (avLoop tr (n + 1) σ).isSome := by
  intro n
  induction n with
  | zero =>
    intro σ hlen
    unfold avLoop
    split_ifs with hstop
    · simp
    · rcases hB : avBody tr σ with r | σ2
      · simp [hB]
      · obtain ⟨hlen2, hthr⟩ := avBody_inr tr σ σ2 hB
        have hstop2 : σ2.stop_calc = true := by
          apply hthr
          have h0 := lenThreshold_nonneg tr
          have : lenThreshold tr = ((lenThreshold tr).toNat : ℤ) :=
            (Int.toNat_of_nonneg h0).symm
          rw [this]
          exact_mod_cast by omega
        simp [hB, avLoop, hstop2]
  | succ n ih =>
    intro σ hlen
    unfold avLoop
    split_ifs with hstop
    · simp
    · rcases hB : avBody tr σ with r | σ2
      · simp [hB]
      · obtain ⟨hlen2, _⟩ := avBody_inr tr σ σ2 hB
        have := ih σ2 (by omega)
        simpa [hB] using this

/-- Claim C8: for every start point, av_traj terminates after finitely many
loop iterations: every continuing iteration appends exactly one point, so
the coordinate-count threshold forces the stop flag, and running the loop
with avFuel iterations from any start state always reaches an exit. -/
theorem av_traj_terminates (tr : Trainer) (g : Grid) (start : Pt) :
    (avLoop tr (avFuel tr) ⟨g, [start], start, 0, false⟩).isSome := by
  have h := avLoop_isSome_of_len tr ((lenThreshold tr).toNat + 2)
    ⟨g, [start], start, 0, false⟩ (by simp only [List.length_singleton]; omega)
  simpa [avFuel] using h

theorem pyRound_07 : pyRound (0.7 : ℝ) = 1 := by
  have h0 : ⌊(0.7 : ℝ)⌋ = 0 := by
    rw [Int.floor_eq_zero_iff]
    constructor <;> norm_num
  have hf : Int.fract (0.7 : ℝ) = 0.7 := by
    unfold Int.fract
    rw [h0]
    norm_num
  unfold pyRound
  rw [hf, if_neg (by norm_num), round_eq]
  exact Int.floor_eq_iff.mpr (by constructor <;> norm_num)

theorem not_check_15 :
    ¬check_extents_triangle 1 10 12 ((1.5 : ℝ), (0.4 : ℝ)) := by
  unfold check_extents_triangle
  rw [find_trident_15]
  push_neg
  norm_num

/-- A concrete grid whose every node holds the vector (1.4, 0). -/
def g14 : Grid := fun _ => ((1.4 : ℝ), (0 : ℝ))

theorem g14_ne_zero (idx : ℤ × ℤ) : g14 idx ≠ 0 := by
  intro hc
  have h1 := (Prod.ext_iff.mp hc).1
  have h2 : (1.4 : ℝ) = 0 := by simpa [g14] using h1
  norm_num at h2

/-- A concrete trainer with node spacing 1, a 10 by 12 grid, mean path
length 100, max coordinate count 5, and the given shortest segment. -/
def tr6 (m : ℝ) : Trainer := ⟨1, 10, 12, 100, 0, 5, m⟩

/-- The concrete loop state at the start point (1.5, 0.4) over g14. -/
def av6 : AvState := ⟨g14, [((1.5 : ℝ), (0.4 : ℝ))], ((1.5 : ℝ), (0.4 : ℝ)), 0, false⟩

theorem av_step_eval_c6 :
    av_step 1 g14 ((1.5 : ℝ), (0.4 : ℝ)) ((1.5 : ℝ), (0.4 : ℝ)) =
      some (((2.9 : ℝ), (0.4 : ℝ)), g14) := by
  rw [av_step_k3 find_trident_15 (g14_ne_zero _) (g14_ne_zero _) (g14_ne_zero _)]
  have hdL6 := dist2node_15_to_left_gt
  have hdR6 := dist2node_15_to_right_gt
  have hdC0 : (0 : ℝ) ≤ dist2node ((1.5 : ℝ), (0.4 : ℝ)) ((3 : ℤ), (1 : ℤ)) 1 :=
    norm2_nonneg _
  have hden : (0 : ℝ) < dist2node ((1.5 : ℝ), (0.4 : ℝ)) ((2 : ℤ), (0 : ℤ)) 1 +
      dist2node ((1.5 : ℝ), (0.4 : ℝ)) ((3 : ℤ), (1 : ℤ)) 1 +
      dist2node ((1.5 : ℝ), (0.4 : ℝ)) ((4 : ℤ), (0 : ℤ)) 1 := by linarith
  congr 1
  refine Prod.ext_iff.mpr ⟨?_, rfl⟩
  refine Prod.ext_iff.mpr ⟨?_, ?_⟩ <;>
    simp only [g14, Prod.fst_add, Prod.snd_add, Prod.smul_fst, Prod.smul_snd,
      smul_eq_mul] <;>
    field_simp <;>
    ring

theorem norm2_29_15 :
    norm2 (((2.9 : ℝ), (0.4 : ℝ)) - ((1.5 : ℝ), (0.4 : ℝ))) = 1.4 := by
  apply norm2_eval_sq _ _ (by norm_num)
  simp only [Prod.fst_sub, Prod.snd_sub]
  norm_num

/-- Evaluation of one loop iteration from av6: the step length is 1.4, no
exit is taken, and only the short-segment check can set the stop flag, with
its real threshold 1.4 + round(0.7) = 2.4. -/
theorem avBody_eval_c6 (m : ℝ) :
    avBody (tr6 m) av6 = Sum.inr ⟨g14,
      [((2.9 : ℝ), (0.4 : ℝ)), ((1.5 : ℝ), (0.4 : ℝ))],
      ((2.9 : ℝ), (0.4 : ℝ)), 0 + (1.4 : ℝ), decide (m > (2.4 : ℝ))⟩ := by
  unfold avBody av6 tr6
  dsimp only
  rw [av_step_eval_c6]
  dsimp only
  rw [if_neg (by intro hc; have := (Prod.ext_iff.mp hc).1; norm_num at this)]
  rw [norm2_29_15]
  congr 1
  have hs0 : decide (check_extents_triangle 1 10 12 ((1.5 : ℝ), (0.4 : ℝ))) = false :=
    decide_eq_false not_check_15
  have hc1 : decide ((([((1.5 : ℝ), (0.4 : ℝ))].length : ℤ)) >
      ((5 : ℕ) : ℤ) + pyRound (0.01 * 50 * ((5 : ℕ) : ℝ))) = false := by
    apply decide_eq_false
    intro hcon
    have hnn := pyRound_nonneg (x := 0.01 * 50 * ((5 : ℕ) : ℝ)) (by norm_num)
    simp only [List.length_singleton] at hcon
    omega
  have hc2 : decide (m > (1.4 : ℝ) + (pyRound (0.01 * 50 * (1.4 : ℝ)) : ℝ)) =
      decide (m > (2.4 : ℝ)) := by
    have harg : (0.01 * 50 * (1.4 : ℝ)) = 0.7 := by norm_num
    rw [harg, pyRound_07]
    norm_num
  have hc3 : decide ((100 : ℝ) < 0 + (1.4 : ℝ)) = false :=
    decide_eq_false (by norm_num)
  rw [hs0, hc1, hc2, hc3]
  simp

/-- Counterexample to C6 as stated: with trained shortest segment 2.2 and a
computed step length of 1.4 we have 2.2 > 1.5 * 1.4, yet the loop body
continues with the stop flag still false, because the code compares against
1.4 + round(0.5 * 1.4) = 2.4, not 1.5 * 1.4 = 2.1. -/
theorem av_traj_margin_counterexample :
    (tr6 (2.2 : ℝ)).shortest_segment = 2.2 ∧
      norm2 (((2.9 : ℝ), (0.4 : ℝ)) - ((1.5 : ℝ), (0.4 : ℝ))) = 1.4 ∧
      (2.2 : ℝ) > 1.5 * 1.4 ∧
      avBody (tr6 (2.2 : ℝ)) av6 = Sum.inr ⟨g14,
        [((2.9 : ℝ), (0.4 : ℝ)), ((1.5 : ℝ), (0.4 : ℝ))],
        ((2.9 : ℝ), (0.4 : ℝ)), 0 + (1.4 : ℝ), false⟩ := by
  refine ⟨rfl, norm2_29_15, by norm_num, ?_⟩
  rw [avBody_eval_c6 (2.2 : ℝ)]
  congr 1
  rw [decide_eq_false (by norm_num)]

/-- Claim C6 (amended): the short-segment termination check of av_traj fires
exactly against the threshold delta + round(0.5 * delta) with Python integer
rounding: whenever the loop body continues and the trained shortest segment
exceeds the new step length plus that rounded margin, the stop flag of the
produced state is set. -/
theorem av_traj_short_segment_stop (tr : Trainer) (σ σ2 : AvState)
    (last : Pt) (rest : List Pt) (hT : σ.traj = last :: rest)
    (h : avBody tr σ = Sum.inr σ2)
    (hm : tr.shortest_segment > norm2 (σ2.loc - last) +
      (pyRound (0.01 * 50 * norm2 (σ2.loc - last)) : ℝ)) :
    σ2.stop_calc = true := by
  unfold avBody at h
  rw [hT] at h
  dsimp only at h
  rcases hA : av_step tr.node_spacing σ.grid σ.loc last with _ | ⟨loc2, g2⟩
  · rw [hA] at h
    simp at h
  · rw [hA] at h
    dsimp only at h
    split_ifs at h with hbrk
    have h2 := (Sum.inr.inj h).symm
    subst h2
    dsimp only at hm
    have hc2 : decide (tr.shortest_segment > norm2 (loc2 - last) +
        (pyRound (0.01 * 50 * norm2 (loc2 - last)) : ℝ)) = true :=
      decide_eq_true hm
    simp [hc2]

/-- Witness for the amended C6: with trained shortest segment 3 the same
step has threshold 2.4 < 3, and the loop body sets the stop flag. -/
theorem av_traj_short_segment_stop_witness :
    av6.traj = ((1.5 : ℝ), (0.4 : ℝ)) :: [] ∧
      avBody (tr6 (3 : ℝ)) av6 = Sum.inr ⟨g14,
        [((2.9 : ℝ), (0.4 : ℝ)), ((1.5 : ℝ), (0.4 : ℝ))],
        ((2.9 : ℝ), (0.4 : ℝ)), 0 + (1.4 : ℝ), true⟩ ∧
      (tr6 (3 : ℝ)).shortest_segment >
        norm2 ((AvState.mk g14 [((2.9 : ℝ), (0.4 : ℝ)), ((1.5 : ℝ), (0.4 : ℝ))]
            ((2.9 : ℝ), (0.4 : ℝ)) (0 + (1.4 : ℝ)) true).loc - ((1.5 : ℝ), (0.4 : ℝ))) +
          (pyRound (0.01 * 50 *
            norm2 ((AvState.mk g14 [((2.9 : ℝ), (0.4 : ℝ)), ((1.5 : ℝ), (0.4 : ℝ))]
              ((2.9 : ℝ), (0.4 : ℝ)) (0 + (1.4 : ℝ)) true).loc - ((1.5 : ℝ), (0.4 : ℝ)))) : ℝ) ∧
      (AvState.mk g14 [((2.9 : ℝ), (0.4 : ℝ)), ((1.5 : ℝ), (0.4 : ℝ))]
        ((2.9 : ℝ), (0.4 : ℝ)) (0 + (1.4 : ℝ)) true).stop_calc = true := by
  have h1 : avBody (tr6 (3 : ℝ)) av6 = Sum.inr ⟨g14,
      [((2.9 : ℝ), (0.4 : ℝ)), ((1.5 : ℝ), (0.4 : ℝ))],
      ((2.9 : ℝ), (0.4 : ℝ)), 0 + (1.4 : ℝ), true⟩ := by
    rw [avBody_eval_c6 (3 : ℝ)]
    congr 1
    rw [decide_eq_true (by norm_num)]
  have h2 : (tr6 (3 : ℝ)).shortest_segment >
      norm2 ((AvState.mk g14 [((2.9 : ℝ), (0.4 : ℝ)), ((1.5 : ℝ), (0.4 : ℝ))]
          ((2.9 : ℝ), (0.4 : ℝ)) (0 + (1.4 : ℝ)) true).loc - ((1.5 : ℝ), (0.4 : ℝ))) +
        (pyRound (0.01 * 50 *
          norm2 ((AvState.mk g14 [((2.9 : ℝ), (0.4 : ℝ)), ((1.5 : ℝ), (0.4 : ℝ))]
            ((2.9 : ℝ), (0.4 : ℝ)) (0 + (1.4 : ℝ)) true).loc - ((1.5 : ℝ), (0.4 : ℝ)))) : ℝ) := by
    show (3 : ℝ) > _
    rw [show (AvState.mk g14 [((2.9 : ℝ), (0.4 : ℝ)), ((1.5 : ℝ), (0.4 : ℝ))]
      ((2.9 : ℝ), (0.4 : ℝ)) (0 + (1.4 : ℝ)) true).loc = ((2.9 : ℝ), (0.4 : ℝ)) from rfl]
    rw [norm2_29_15, show (0.01 * 50 * (1.4 : ℝ)) = 0.7 from by norm_num, pyRound_07]
    norm_num
  exact ⟨rfl, h1, h2,
    av_traj_short_segment_stop (tr6 (3 : ℝ)) av6 _ _ _ rfl h1 h2⟩

/-- The three update_node calls of one trident at sample point q toward the
target point (training_model.py, lines 525-541 and 559-575): each node is
updated with the vector from its coordinates to the target. -/
def trident_update (s : ℝ) (g : Grid) (q target : Pt) : Grid :=
  update_node (update_node (update_node g
    (target - coord_from_ind (find_trident q s).1 s) (find_trident q s).1)
    (target - coord_from_ind (find_trident q s).2.1 s) (find_trident q s).2.1)
    (target - coord_from_ind (find_trident q s).2.2 s) (find_trident q s).2.2

/-- The per-segment node updates of update_grid (training_model.py, lines
512-575): a short step updates the trident of the current point; a long
step creeps along the segment in floor(d/s) increments, each sample trident
pointing at the same next trajectory point. -/
def segment_update (s : ℝ) (g : Grid) (loc_current loc_next : Pt) : Grid :=
  let vec := loc_next - loc_current
  let d := norm2 vec
  if d < s then trident_update s g loc_current loc_next
  else
    (List.range (⌊d / s⌋).toNat).foldl
      (fun gg j => trident_update s gg
        (loc_current + (((j : ℝ) * s) / d) • vec) loc_next) g

/-- The per-trajectory loop of BuildGrid.update_grid (training_model.py,
lines 496-583): walks the trajectory, breaks on a zero-length segment or an
out-of-extents point or at the final coordinate, updates the nodes of the
current segment, and then invokes av_traj once from the first trajectory
point, absorbing its optional result; the accumulated list records the start
point of every av_traj invocation. -/
def ug_loop (tr : Trainer) (traj : List Pt) (zeroSeg : Prop) :
    List Pt → ℕ → Grid → List Pt → Grid × List Pt
  | [], _, g, calls => (g, calls)
  | loc :: rest, next_ind, g, calls =>
    if check_extents_triangle tr.node_spacing tr.shape_x tr.shape_y loc ∨ zeroSeg then
      (g, calls)
    else if traj.length = next_ind + 1 then (g, calls)
    else
      let loc_next := traj.getD (next_ind + 1) (0, 0)
      let g1 := segment_update tr.node_spacing g loc loc_next
      let start := traj.getD 0 (0, 0)
      let g2 := (av_traj_run tr g1 start).2
      ug_loop tr traj zeroSeg rest (next_ind + 1) g2 (calls ++ [start])

/-- BuildGrid.update_grid (training_model.py, lines 455-583): computes the
trajectory metrics, updates the aggregate statistics (count, mean path
length, shortest segment, max coordinate count) before any validation, and
then runs the per-trajectory loop.  Returns the new trainer, the new grid
and the list of start points passed to av_traj. -/
def update_grid (tr : Trainer) (g : Grid) (traj : List Pt) :
    Trainer × Grid × List Pt :=
  let s0 := minSeg traj
  let cc := traj.length
  let plen := pathLen traj
  let N := tr.grid_update_count + 1
  let avg2 := tr.average_path_length * ((N : ℝ) - 1) / (N : ℝ) + plen / (N : ℝ)
  let smin2 := if tr.shortest_segment > s0 then s0 else tr.shortest_segment
  let cmax2 := if cc > tr.max_coord_count then cc else tr.max_coord_count
  let tr2 : Trainer := ⟨tr.node_spacing, tr.shape_x, tr.shape_y, avg2, N, cmax2, smin2⟩
  let r := ug_loop tr2 traj (s0 = 0) traj 0 g []
  (tr2, r.1, r.2)

/-- With the zero-length-segment flag set, the trajectory loop breaks on its
first iteration: no grid mutation and no synthesizer invocation. -/
theorem ug_loop_zero (tr : Trainer) (traj : List Pt) (zeroSeg : Prop)
    (hz : zeroSeg) :
    ∀ (rem : List Pt) (next_ind : ℕ) (g : Grid) (calls : List Pt),
      ug_loop tr traj zeroSeg rem next_ind g calls = (g, calls) := by
  intro rem next_ind g calls
  cases rem with
  | nil => rfl
  | cons loc rest =>
    unfold ug_loop
    rw [if_pos (Or.inr hz)]

/-- Without the zero flag, on an in-extents trajectory, the loop performs
one av_traj invocation from the first trajectory point per remaining
segment. -/
theorem ug_loop_calls (tr : Trainer) (traj : List Pt) (zeroSeg : Prop)
    (hz : ¬zeroSeg) :
    ∀ (rem : List Pt) (next_ind : ℕ) (g : Grid) (calls : List Pt),
      (∀ p ∈ rem,
        ¬check_extents_triangle tr.node_spacing tr.shape_x tr.shape_y p) →
      next_ind + rem.length = traj.length →
      (ug_loop tr traj zeroSeg rem next_ind g calls).2 =
        calls ++ List.replicate (rem.length - 1) (traj.getD 0 (0, 0)) := by
  intro rem
  induction rem with
  | nil =>
    intro next_ind g calls hchk halign
    simp [ug_loop]
  | cons loc rest ih =>
    intro next_ind g calls hchk halign
    unfold ug_loop
    rw [if_neg (by
      rintro (hc | hc)
      · exact hchk loc (List.mem_cons_self _ _) hc
      · exact hz hc)]
    by_cases hlast : traj.length = next_ind + 1
    · rw [if_pos hlast]
      have hr0 : rest.length = 0 := by
        simp only [List.length_cons] at halign
        omega
      simp [hr0]
    · rw [if_neg hlast]
      simp only [List.length_cons] at halign
      have hge : 1 ≤ rest.length := by omega
      have h := ih (next_ind + 1)
        ((av_traj_run tr (segment_update tr.node_spacing g loc
          (traj.getD (next_ind + 1) (0, 0))) (traj.getD 0 (0, 0))).2)
        (calls ++ [traj.getD 0 (0, 0)])
        (fun p hp => hchk p (List.mem_cons_of_mem _ hp)) (by omega)
      rw [h]
      rw [List.append_assoc]
      congr 1
      have hsucc : rest.length = (rest.length - 1) + 1 := by omega
      simp only [List.length_cons, Nat.add_sub_cancel, List.singleton_append]
      nth_rewrite 2 [hsucc]
      rw [List.replicate_succ]

theorem not_check_16 :
    ¬check_extents_triangle 1 10 12 ((1.6 : ℝ), (0.4 : ℝ)) := by
  unfold check_extents_triangle
  rw [find_trident_16]
  push_neg
  norm_num

theorem not_check_17 :
    ¬check_extents_triangle 1 10 12 ((1.7 : ℝ), (0.4 : ℝ)) := by
  unfold check_extents_triangle
  rw [find_trident_17]
  push_neg
  norm_num

/-- A concrete three-point trajectory with two short in-extents segments. -/
def traj3 : List Pt :=
  [((1.5 : ℝ), (0.4 : ℝ)), ((1.6 : ℝ), (0.4 : ℝ)), ((1.7 : ℝ), (0.4 : ℝ))]

theorem minSeg_traj3 : minSeg traj3 = 0.1 := by
  have h1 : ((1.6 : ℝ), (0.4 : ℝ)) - ((1.5 : ℝ), (0.4 : ℝ)) = ((0.1 : ℝ), (0 : ℝ)) := by
    refine Prod.ext_iff.mpr ⟨?_, ?_⟩ <;>
      simp only [Prod.fst_sub, Prod.snd_sub] <;> norm_num
  have h2 : ((1.7 : ℝ), (0.4 : ℝ)) - ((1.6 : ℝ), (0.4 : ℝ)) = ((0.1 : ℝ), (0 : ℝ)) := by
    refine Prod.ext_iff.mpr ⟨?_, ?_⟩ <;>
      simp only [Prod.fst_sub, Prod.snd_sub] <;> norm_num
  have h3 : norm2 ((0.1 : ℝ), (0 : ℝ)) = 0.1 :=
    norm2_eval_sq _ _ (by norm_num) (by norm_num)
  unfold minSeg traj3
  simp only [segLens, h1, h2, h3]
  simp

theorem update_grid_calls_aux (tr : Trainer) (g : Grid) (traj : List Pt)
    (hz : minSeg traj ≠ 0)
    (hchk : ∀ p ∈ traj,
      ¬check_extents_triangle tr.node_spacing tr.shape_x tr.shape_y p) :
    (update_grid tr g traj).2.2 =
      List.replicate (traj.length - 1) (traj.getD 0 (0, 0)) := by
  unfold update_grid
  dsimp only
  refine (ug_loop_calls _ traj (minSeg traj = 0) hz traj 0 g [] ?_ (by omega)).trans ?_
  · exact hchk
  · simp

/-- Claim C3 (amended): update_grid invokes the synthesizer av_traj once per
processed segment — traj.length - 1 times for a trajectory that stays
inside the extents and has no zero-length segment — every time starting from
the trajectory's first point, and a none result is silently absorbed. -/
theorem update_grid_call_count (tr : Trainer) (g : Grid) (traj : List Pt)
    (hz : minSeg traj ≠ 0)
    (hchk : ∀ p ∈ traj,
      ¬check_extents_triangle tr.node_spacing tr.shape_x tr.shape_y p) :
    (update_grid tr g traj).2.2 =
      List.replicate (traj.length - 1) (traj.getD 0 (0, 0)) :=
  update_grid_calls_aux tr g traj hz hchk

/-- Witness for the amended C3 on a concrete three-point trajectory: two
av_traj invocations, both from the first point. -/
theorem update_grid_call_count_witness :
    minSeg traj3 ≠ 0 ∧
      (update_grid (tr6 1) gOne traj3).2.2 =
        List.replicate (traj3.length - 1) (traj3.getD 0 (0, 0)) := by
  have hz : minSeg traj3 ≠ 0 := by
    rw [minSeg_traj3]
    norm_num
  have hchk : ∀ p ∈ traj3,
      ¬check_extents_triangle (tr6 1).node_spacing (tr6 1).shape_x
        (tr6 1).shape_y p := by
    intro p hp
    simp only [traj3, List.mem_cons, List.not_mem_nil, or_false] at hp
    rcases hp with rfl | rfl | rfl
    · exact not_check_15
    · exact not_check_16
    · exact not_check_17
  exact ⟨hz, update_grid_call_count (tr6 1) gOne traj3 hz hchk⟩

/-- Counterexample to C3 as stated: ingesting the three-point trajectory
traj3 invokes av_traj twice (once after each processed segment), not exactly
once. -/
theorem update_grid_once_counterexample :
    (update_grid (tr6 1) gOne traj3).2.2.length = 2 ∧ (2 : ℕ) ≠ 1 := by
  constructor
  · have hz : minSeg traj3 ≠ 0 := by
      rw [minSeg_traj3]
      norm_num
    have hchk : ∀ p ∈ traj3,
        ¬check_extents_triangle (tr6 1).node_spacing (tr6 1).shape_x
          (tr6 1).shape_y p := by
      intro p hp
      simp only [traj3, List.mem_cons, List.not_mem_nil, or_false] at hp
      rcases hp with rfl | rfl | rfl
      · exact not_check_15
      · exact not_check_16
      · exact not_check_17
    rw [update_grid_calls_aux (tr6 1) gOne traj3 hz hchk]
    simp [traj3]
  · norm_num

/-- A concrete trajectory with a zero-length first segment (spec scenario
S4). -/
def traj4 : List Pt := [((2 : ℝ), (2 : ℝ)), ((2 : ℝ), (2 : ℝ)), ((3 : ℝ), (3 : ℝ))]

theorem minSeg_traj4 : minSeg traj4 = 0 := by
  have h1 : ((2 : ℝ), (2 : ℝ)) - ((2 : ℝ), (2 : ℝ)) = ((0 : ℝ), (0 : ℝ)) := by
    refine Prod.ext_iff.mpr ⟨?_, ?_⟩ <;>
      simp only [Prod.fst_sub, Prod.snd_sub] <;> norm_num
  have h2 : norm2 ((0 : ℝ), (0 : ℝ)) = 0 :=
    norm2_eval_sq _ _ le_rfl (by norm_num)
  unfold minSeg traj4
  simp only [segLens, h1, h2]
  simp [min_eq_left (norm2_nonneg _)]

/-- Claim C4 (amended): a trajectory with a zero-length segment is rejected
(no grid mutation and no synthesizer invocation), but the aggregate update
runs before the validation, so the shortest-segment statistic is tightened
to min(sigma_min, 0); it does not stay strictly positive. -/
theorem update_grid_zero_segment (tr : Trainer) (g : Grid) (traj : List Pt)
    (hz : minSeg traj = 0) :
    (update_grid tr g traj).1.shortest_segment = min tr.shortest_segment 0 ∧
      (update_grid tr g traj).2.1 = g ∧ (update_grid tr g traj).2.2 = [] := by
  unfold update_grid
  dsimp only
  rw [ug_loop_zero _ traj _ hz]
  refine ⟨?_, rfl, rfl⟩
  rw [hz]
  by_cases h : tr.shortest_segment > 0
  · rw [if_pos h, min_eq_right h.le]
  · rw [if_neg h, min_eq_left (not_lt.mp h)]

/-- Witness for the amended C4 on the concrete trajectory traj4. -/
theorem update_grid_zero_segment_witness :
    minSeg traj4 = 0 ∧
      ((update_grid (tr6 2) gOne traj4).1.shortest_segment =
          min (tr6 2).shortest_segment 0 ∧
        (update_grid (tr6 2) gOne traj4).2.1 = gOne ∧
        (update_grid (tr6 2) gOne traj4).2.2 = []) :=
  ⟨minSeg_traj4, update_grid_zero_segment (tr6 2) gOne traj4 minSeg_traj4⟩

/-- Counterexample to C4 as stated: ingesting traj4 with trained shortest
segment 1 rejects the trajectory but tightens the statistic to exactly 0, so
it does not stay strictly positive and is not left unchanged. -/
theorem update_grid_sigma_zero_counterexample :
    (tr6 1).shortest_segment = 1 ∧
      (update_grid (tr6 1) gOne traj4).1.shortest_segment = 0 := by
  refine ⟨rfl, ?_⟩
  unfold update_grid tr6
  dsimp only
  rw [minSeg_traj4]
  norm_num

end PathPlanning
